import Mathlib

/-!
# Verification of the MythAI parallels suggestion engine

Shallow embedding of the suggestion/scoring pipeline of
`myth-parallels-server/server.js` (the revision containing the
`/api/parallels/suggest` route with the composite score).

Modelling conventions:
* JavaScript floating-point numbers are embedded as rationals `ℚ`
  (every JS float value is a rational; the formulas of the pipeline are
  embedded with exact arithmetic).
* `Math.sqrt` is the host float square root; it is kept as an abstract
  parameter `sqrtFn : ℚ → ℚ` of the functions that use it.  Every claim
  settled here holds for an arbitrary `sqrtFn`.
* The Porter stemming function `stemmer.stem` and the TF-IDF weight
  model come from the external `natural` npm package (not part of this
  repository); they are kept as abstract parameters `stem : String → String`
  and `tfidf : List String → List TermMap`.
* `natural.WordTokenizer` splits the input on maximal runs of characters
  outside `[a-zA-Z0-9_]` and discards empty pieces; it is embedded
  concretely below (`tokenize`), operating on the already lowercased text.
* Database rows are embedded as the record type `Row`; the corpus query of
  `buildOrGetCache` always denormalises `themes` into an array of name
  strings and the rows used by the pipeline carry `tags` as an array, so
  those fields are `List String` (the string-shaped fallback branches of
  `normalizeTags` / `extractThemes` are not reachable from the corpus
  query and are not modelled).
-/

/-! ## Text normalizer (`server.js` lines 443‑475) -/

/-- Word characters of `natural.WordTokenizer` (`[a-zA-Z0-9_]`). -/
def wordChar (c : Char) : Bool := c.isAlpha || c.isDigit || c = '_'

/-- Splitting loop of the tokenizer: accumulates the current word (reversed)
and emits it when a non-word character or the end of input is reached. -/
def tokenizeAux : List Char → List Char → List String
  | [], cur => if cur.isEmpty then [] else [String.mk cur.reverse]
  | c :: rest, cur =>
    if wordChar c then tokenizeAux rest (c :: cur)
    else if cur.isEmpty then tokenizeAux rest []
    else String.mk cur.reverse :: tokenizeAux rest []

/-- `tokenizer.tokenize`: split into word tokens, discarding empty pieces. -/
def tokenize (s : String) : List String := tokenizeAux s.data []

/-- `String.prototype.toLowerCase` (ASCII case folding suffices for the
corpus text handled by the pipeline). -/
def jsToLower (s : String) : String := String.mk (s.data.map Char.toLower)

/-- `t.replace(/[^a-z0-9]/g, '')`. -/
def stripNonAlnum (t : String) : String :=
  String.mk (t.data.filter (fun c => (('a' ≤ c) && (c ≤ 'z')) || (('0' ≤ c) && (c ≤ '9'))))

/-- The fixed general stopword set (`STOPWORDS`, line 446). -/
def STOPWORDS : List String :=
  ["the","and","for","a","an","of","in","on","to","is","are","that","this",
   "with","as","by","from","it","its","be","was","were","which","or","but"]

/-- The fixed entity stopword set (`ENTITY_STOPWORDS`, line 447). -/
def ENTITY_STOPWORDS : List String :=
  ["jesus","christ","moses","krishna","buddha","zeus","apollo","muhammad",
   "allah","odin","thor","ra","ishvara"]

/-- `preprocessToTokens` (lines 465‑472): lowercase, tokenize, strip
non-alphanumerics, keep tokens that are non-empty, longer than 2 and not
stopwords, then stem each survivor.  The stemming function of the external
`natural` package is the parameter `stem`. -/
def preprocessToTokens (stem : String → String) (text : String) : List String :=
  if text = "" then []
  else
    (((tokenize (jsToLower text)).map stripNonAlnum).filter
      (fun t => t ≠ "" && decide (2 < t.length) &&
        !(STOPWORDS.contains t) && !(ENTITY_STOPWORDS.contains t))).map stem

/-- `Array.prototype.join(' ')`. -/
def joinSpaces : List String → String
  | [] => ""
  | [a] => a
  | a :: b :: rest => a ++ " " ++ joinSpaces (b :: rest)

/-- `preprocessToString` (lines 473‑475). -/
def preprocessToString (stem : String → String) (text : String) : String :=
  joinSpaces (preprocessToTokens stem text)

/-- `safeSlice` (lines 476‑479): cap a string at `max` characters. -/
def safeSlice (s : String) (max : Nat) : String :=
  if max < s.length then String.mk (s.data.take max) else s

/-- `String.prototype.trim`. -/
def jsTrim (s : String) : String :=
  String.mk (((s.data.dropWhile Char.isWhitespace).reverse.dropWhile Char.isWhitespace).reverse)

/-! ## Data model -/

/-- A myth row as returned by the corpus query of `buildOrGetCache`
(lines 495‑503): `themes` is denormalised to a list of theme names. -/
structure Row where
  id : Int
  title : String
  summary : String
  content : String
  tags : List String
  themes : List String
  tradition : String
  imageUrl : String
deriving DecidableEq

/-- `normalizeTags` (lines 449‑463) on the array shape produced by the
corpus rows: join the tags with single spaces. -/
def normalizeTags (tags : List String) : String := joinSpaces tags

/-! ## Document builder (`buildDocForRow`, lines 480‑487) -/

/-- The title part of a document:
`Array(Math.max(1, titleBoost)).fill(preprocessToString(title)).join(' ')`. -/
def titlePart (stem : String → String) (title : String) (titleBoost : Int) : String :=
  joinSpaces (List.replicate (max 1 titleBoost).toNat (preprocessToString stem title))

/-- `buildDocForRow` (lines 480‑487). -/
def buildDocForRow (stem : String → String) (row : Row) (titleBoost : Int) : String :=
  jsTrim (titlePart stem row.title titleBoost ++ " " ++
    preprocessToString stem (safeSlice row.summary 2000) ++ " " ++
    preprocessToString stem (safeSlice row.content 2000) ++ " " ++
    preprocessToString stem (normalizeTags row.tags))

/-! ## Lexical overlap helpers (`server.js` lines 517‑544) -/

/-- `ngramsFromTokens` (lines 518‑524): all windows of `n` adjacent tokens,
joined with single spaces (the loop runs for every `i` with
`i + n - 1 < tokens.length`). -/
def ngramsFromTokens (tokens : List String) (n : Nat) : List String :=
  (List.range (tokens.length + 1 - n)).map (fun i => joinSpaces ((tokens.drop i).take n))

/-- `toSet` (lines 525‑527). -/
def toSet (arr : List String) : Finset String := arr.toFinset

/-- `intersectionSize` (lines 528‑533): count of elements of `a` present in `b`. -/
def intersectionSize (a b : Finset String) : Nat := (a ∩ b).card

/-- `unionSize` (lines 534‑539). -/
def unionSize (a b : Finset String) : Nat := (a ∪ b).card

/-- `jaccard` (lines 540‑544): intersection over union, `0` when the union
is empty. -/
def jaccard (a b : Finset String) : ℚ :=
  if unionSize a b = 0 then 0 else (intersectionSize a b : ℚ) / (unionSize a b : ℚ)

/-- The bigram Jaccard measure as applied at line 806: Jaccard index of the
bigram sets extracted from two token sequences. -/
def bigramJaccard (a b : List String) : ℚ :=
  jaccard (toSet (ngramsFromTokens a 2)) (toSet (ngramsFromTokens b 2))

/-! ## Term-weight maps and cosine (`server.js` lines 769‑782) -/

/-- A term-weight map (`term -> weight`), as built at lines 770‑774 from the
TF-IDF model: a JS object, so its keys are distinct. -/
structure TermMap where
  entries : List (String × ℚ)
  nodup : (entries.map Prod.fst).Nodup

/-- Lookup with the `|| 0` default of the `cosine` loop: a missing key
contributes weight `0`. -/
def lookupQ : List (String × ℚ) → String → ℚ
  | [], _ => 0
  | (k, v) :: rest, t => if k = t then v else lookupQ rest t

def TermMap.get (m : TermMap) (t : String) : ℚ := lookupQ m.entries t

/-- The empty term map (a fresh `{}`). -/
def emptyTermMap : TermMap := ⟨[], List.nodup_nil⟩

/-- The accumulator `num` of `cosine`: iterates the keys of `a`, adding
`a[t] * (b[t] || 0)`. -/
def dotNum (a b : TermMap) : ℚ := (a.entries.map (fun p => p.2 * b.get p.1)).sum

/-- The accumulators `aa` (over the keys of `a`) and `bb` (over the keys of
`b`) of `cosine`: sums of squared weights. -/
def sumSq (a : TermMap) : ℚ := (a.entries.map (fun p => p.2 * p.2)).sum

/-- `cosine` (lines 776‑782).  `sqrtFn` stands for `Math.sqrt`. -/
def cosine (sqrtFn : ℚ → ℚ) (a b : TermMap) : ℚ :=
  if sumSq a = 0 ∨ sumSq b = 0 then 0
  else dotNum a b / (sqrtFn (sumSq a) * sqrtFn (sumSq b))

/-! ## Themes and candidate-pool narrowing (`server.js` lines 715‑761) -/

/-- `extractThemes` (lines 716‑734) on the denormalised array shape of the
corpus rows: lowercase every theme name. -/
def extractThemes (row : Row) : List String := row.themes.map jsToLower

/-- The narrowing predicate of lines 751‑755: the candidate shares at least
one (lowercased) theme with the source theme set. -/
def sharesTheme (sourceThemes : Finset String) (c : Row) : Bool :=
  (extractThemes c).any (fun t => decide (t ∈ sourceThemes))

/-- Candidate-pool narrowing with fallback (lines 748‑759): when the source
has at least one theme, restrict the pool to theme-sharing candidates, but
fall back to the unrestricted pool when that restriction empties it. -/
def narrowPool (sourceThemes : Finset String) (raw : List Row) : List Row :=
  if 0 < sourceThemes.card then
    let pr := raw.filter (fun c => sharesTheme sourceThemes c)
    if pr.isEmpty then raw else pr
  else raw

/-! ## Scoring (`server.js` lines 698‑857) -/

/-- Tuning constants (lines 699‑702). -/
def TITLE_BOOST : Int := 3

def MIN_SCORE : ℚ := 0.035

def TOP_K : Nat := 12

def THEME_AUTO_ACCEPT : Nat := 2

/-- The raw motif keyword list of lines 705‑707, before stemming. -/
def KEYWORD_BASE : List String :=
  ["birth","born","nativity","miracl","miraculous","conception","found",
   "founder","origin","resurrect","resurrecti","divin","prophet","savior","sacrifice"]

/-- `KEYWORD_GROUP` (lines 705‑707): the keyword list mapped through the
stemming function. -/
def KEYWORD_GROUP (stem : String → String) : List String := KEYWORD_BASE.map stem

/-- The full-text concatenation used for token sets
(line 785 and line 799): `` `${title} ${summary} ${content}` ``. -/
def allText (row : Row) : String := row.title ++ " " ++ row.summary ++ " " ++ row.content

/-- The `raw` rationale breakdown stored with every kept candidate
(lines 844‑853). -/
structure RawBreakdown where
  baseScore : ℚ
  sharedThemeCount : Nat
  bigramJacc : ℚ
  unigramJacc : ℚ
  sharedKeywordCount : Nat
  sharedTitleCount : Nat
  title : String
  id : Int
deriving DecidableEq

/-- One element of the `scored` list (lines 842‑855). -/
structure Entry where
  score : ℚ
  raw : RawBreakdown
  myth : Row
deriving DecidableEq

/-- The body of the scoring loop (lines 793‑835): every similarity measure
between the source and one candidate, composed into the final score.  The
source-side token sets are computed once outside the loop in the code
(lines 784‑789, 812) from the same expressions. -/
def scoreCandidate (sqrtFn : ℚ → ℚ) (stem : String → String) (sourceRow : Row)
    (srcMap : TermMap) (cand : Row) (candMap : TermMap) : Entry :=
  let baseScore := cosine sqrtFn srcMap candMap
  let srcTokens := preprocessToTokens stem (allText sourceRow)
  let srcTokenSet := toSet srcTokens
  let srcBigramSet := toSet (ngramsFromTokens srcTokens 2)
  let candTokens := preprocessToTokens stem (allText cand)
  let candTokenSet := toSet candTokens
  let candBigramSet := toSet (ngramsFromTokens candTokens 2)
  let bigramJacc := jaccard srcBigramSet candBigramSet
  let unigramJacc := jaccard srcTokenSet candTokenSet
  let srcTitleTokens := toSet (preprocessToTokens stem sourceRow.title)
  let candTitleTokens := toSet (preprocessToTokens stem cand.title)
  let sharedTitleCount := intersectionSize srcTitleTokens candTitleTokens
  let sourceThemes := toSet (extractThemes sourceRow)
  let candThemes := toSet (extractThemes cand)
  let sharedThemeCount := intersectionSize sourceThemes candThemes
  let sharedKeywordCount := (KEYWORD_GROUP stem).countP
    (fun kw => decide (kw ∈ srcTokenSet) && decide (kw ∈ candTokenSet))
  let themeBoost : ℚ := (min sharedThemeCount 3 : Nat) * 0.45
  let bigramBoost : ℚ := bigramJacc * 1.1
  let unigramBoost : ℚ := unigramJacc * 0.35
  let keywordBoost : ℚ := (min sharedKeywordCount 3 : Nat) * 0.5
  let titlePenalty : ℚ := if 0 < sharedTitleCount ∧ baseScore < 0.08 then 0.6 else 1.0
  let finalScore := baseScore * (1 + themeBoost + bigramBoost + unigramBoost + keywordBoost) * titlePenalty
  { score := finalScore,
    raw := { baseScore := baseScore, sharedThemeCount := sharedThemeCount,
             bigramJacc := bigramJacc, unigramJacc := unigramJacc,
             sharedKeywordCount := sharedKeywordCount, sharedTitleCount := sharedTitleCount,
             title := cand.title, id := cand.id },
    myth := cand }

/-- The scoring loop with its qualification test (lines 792‑857): each
candidate is scored, and pushed onto `scored` exactly when it auto-qualifies
by shared themes or clears the score threshold (lines 840‑841). -/
def scoreLoop (sqrtFn : ℚ → ℚ) (stem : String → String) (sourceRow : Row)
    (srcMap : TermMap) (pairs : List (Row × TermMap)) : List Entry :=
  pairs.filterMap (fun p =>
    let e := scoreCandidate sqrtFn stem sourceRow srcMap p.1 p.2
    if THEME_AUTO_ACCEPT ≤ e.raw.sharedThemeCount ∨ MIN_SCORE ≤ e.score then some e else none)

/-! ## Ordering and truncation (`server.js` lines 860‑861)

`scored.sort((a, b) => b.score - a.score)` is a stable sort placing higher
scores first; it is embedded as a stable insertion sort. -/

/-- Stable descending insertion: `e` goes in front of the first element whose
score does not exceed it (elements inserted earlier that tie with `e` keep
their earlier position relative to later input, and `e` precedes equal-score
elements that came after it in the input). -/
def insertScoredDesc (e : Entry) : List Entry → List Entry
  | [] => [e]
  | x :: xs => if x.score ≤ e.score then e :: x :: xs else x :: insertScoredDesc e xs

/-- The stable descending sort of line 860. -/
def sortScoredDesc (l : List Entry) : List Entry := l.foldr insertScoredDesc []

/-- Line 860‑861: sort descending by score, then `slice(0, TOP_K)`. -/
def rankCandidates (scored : List Entry) : List Entry := (sortScoredDesc scored).take TOP_K

/-! ## Corpus snapshot cache (`server.js` lines 489‑515) -/

/-- One cached corpus snapshot (`{ ts, docs, idToRow, mythList }`,
line 512).  The id map is kept as an association list; the corpus query
groups by `m.id`, so ids are unique. -/
structure Snapshot where
  ts : Int
  docs : List String
  idToRow : List (Int × Row × String)
  mythList : List Row
deriving DecidableEq

/-- `SUGGEST_CACHE.ttlMs` (line 490): five minutes. -/
def SUGGEST_CACHE_TTL : Int := 1000 * 60 * 5

/-- The snapshot-building half of `buildOrGetCache` (lines 495‑513): fetch
every row, build its document with the given `titleBoost`, and index by id. -/
def buildSnapshot (stem : String → String) (now : Int) (titleBoost : Int)
    (rows : List Row) : Snapshot :=
  { ts := now,
    docs := rows.map (fun r => buildDocForRow stem r titleBoost),
    idToRow := rows.map (fun r => (r.id, r, buildDocForRow stem r titleBoost)),
    mythList := rows }

/-- `buildOrGetCache` (lines 491‑515).  The process-wide mutable
`SUGGEST_CACHE.value` is passed and returned explicitly; `rows` is the
result the store would deliver if queried.  The third component records
whether the store was actually queried. -/
def buildOrGetCache (stem : String → String) (now : Int) (titleBoost : Int)
    (rows : List Row) (st : Option Snapshot) : Snapshot × Option Snapshot × Bool :=
  match st with
  | some v =>
    if now - v.ts < SUGGEST_CACHE_TTL then (v, some v, false)
    else
      let s := buildSnapshot stem now titleBoost rows
      (s, some s, true)
  | none =>
    let s := buildSnapshot stem now titleBoost rows
    (s, some s, true)

/-- `cache.idToRow.get(numericId)`: the JS `Map` is keyed by
`Number(row.id)`, and the probe `numericId` is an arbitrary JS number, so
keys are compared as rationals. -/
def lookupIdToRow : List (Int × Row × String) → ℚ → Option (Row × String)
  | [], _ => none
  | (k, rd) :: rest, q => if (k : ℚ) = q then some rd else lookupIdToRow rest q

/-! ## The suggest request (`server.js` lines 692‑886) -/

/-- The result of `Number(mythId)`: a finite rational, or one of the
non-finite JS numbers. -/
inductive JSNum where
  | nan
  | posInf
  | negInf
  | num (q : ℚ)
deriving DecidableEq

/-- `Number.isFinite`. -/
def JSNum.isFinite : JSNum → Bool
  | num _ => true
  | _ => false

/-- The observable response of the suggest route: HTTP 400
(`invalid mythId`), HTTP 404 (`source myth not found`), or the ranked
result list. -/
inductive SuggestResp where
  | badRequest
  | notFound
  | ok (body : List Entry)
deriving DecidableEq

/-- The outcome of one suggest request: the response, the cache state it
leaves behind, and how many store queries it issued (the corpus fetch of
`buildOrGetCache` and the accepted-links fetch, counted separately). -/
structure SuggestOut where
  resp : SuggestResp
  cache : Option Snapshot
  corpusFetches : Nat
  linkedFetches : Nat
deriving DecidableEq

/-- The `/api/parallels/suggest` handler (lines 692‑886).  `storeRows` is
the corpus the store would deliver, `parallels` the accepted
`(myth_a, myth_b)` links.  The final payload projection of lines 861‑879 is
omitted: it maps each kept entry to a response record, preserving order,
score and count. -/
def suggestRun (sqrtFn : ℚ → ℚ) (stem : String → String)
    (tfidf : List String → List TermMap) (now : Int) (storeRows : List Row)
    (parallels : List (Int × Int)) (st : Option Snapshot) (mythId : JSNum) : SuggestOut :=
  match mythId with
  | .num numericId =>
    let c := buildOrGetCache stem now TITLE_BOOST storeRows st
    let fetched := if c.2.2 then 1 else 0
    match lookupIdToRow c.1.idToRow numericId with
    | none => ⟨.notFound, c.2.1, fetched, 0⟩
    | some src =>
      let sourceRow := src.1
      let sourceThemes := toSet (extractThemes sourceRow)
      let linkedBs :=
        ((parallels.filter (fun p => decide ((p.1 : ℚ) = numericId))).map Prod.snd).filter
          (fun b => b ≠ 0)
      let rawCandidates := c.1.mythList.filter
        (fun m => decide ((m.id : ℚ) ≠ numericId) && !(linkedBs.contains m.id))
      let prioritized := narrowPool sourceThemes rawCandidates
      if prioritized.isEmpty then ⟨.ok [], c.2.1, fetched, 1⟩
      else
        let sourceDoc := buildDocForRow stem sourceRow TITLE_BOOST
        let docs := sourceDoc :: prioritized.map (fun cnd => buildDocForRow stem cnd TITLE_BOOST)
        let termMaps := tfidf docs
        let srcMap := termMaps.getD 0 emptyTermMap
        let pairs := prioritized.enum.map (fun p => (p.2, termMaps.getD (p.1 + 1) emptyTermMap))
        let scored := scoreLoop sqrtFn stem sourceRow srcMap pairs
        ⟨.ok (rankCandidates scored), c.2.1, fetched, 1⟩
  | _ => ⟨.badRequest, st, 0, 0⟩

/-- Two suggest calls at times `t1`, `t2` starting from an empty cache, the
second reusing the cache state left by the first; returns the total number
of corpus fetches issued. -/
def suggestTwice (sqrtFn : ℚ → ℚ) (stem : String → String)
    (tfidf : List String → List TermMap) (t1 t2 : Int) (store1 store2 : List Row)
    (parallels : List (Int × Int)) (id1 id2 : JSNum) : Nat :=
  let o1 := suggestRun sqrtFn stem tfidf t1 store1 parallels none id1
  let o2 := suggestRun sqrtFn stem tfidf t2 store2 parallels o1.cache id2
  o1.corpusFetches + o2.corpusFetches

/-- As `suggestTwice`, but with `SUGGEST_CACHE.value = null` (an
`invalidateCache` / write-triggered invalidation) between the two calls. -/
def suggestTwiceInvalidate (sqrtFn : ℚ → ℚ) (stem : String → String)
    (tfidf : List String → List TermMap) (t1 t2 : Int) (store1 store2 : List Row)
    (parallels : List (Int × Int)) (id1 id2 : JSNum) : Nat :=
  let o1 := suggestRun sqrtFn stem tfidf t1 store1 parallels none id1
  let o2 := suggestRun sqrtFn stem tfidf t2 store2 parallels none id2
  o1.corpusFetches + o2.corpusFetches

/-! ## Spec-side formulations -/

/-- Modelled from the spec: the composite-score formula of spec §4.6 step 4,
stated over a rationale breakdown:
`finalScore = baseScore × (1 + themeBoost + bigramBoost + unigramBoost + keywordBoost) × titlePenalty`
with `themeBoost = min(sharedThemeCount,3) × 0.45`,
`bigramBoost = bigramJaccard × 1.1`, `unigramBoost = unigramJaccard × 0.35`,
`keywordBoost = min(sharedKeywordCount,3) × 0.5`, and
`titlePenalty = 0.6` iff `sharedTitleCount > 0` and `baseScore < 0.08`. -/
def specFinalScore (r : RawBreakdown) : ℚ :=
  r.baseScore *
    (1 + (min r.sharedThemeCount 3 : Nat) * (0.45 : ℚ) + r.bigramJacc * 1.1 +
      r.unigramJacc * 0.35 + (min r.sharedKeywordCount 3 : Nat) * (0.5 : ℚ)) *
    (if 0 < r.sharedTitleCount ∧ r.baseScore < 0.08 then 0.6 else 1.0)

/-! ## Helper lemmas for the ranking policy -/

theorem perm_insertScoredDesc (e : Entry) (l : List Entry) :
    (insertScoredDesc e l).Perm (e :: l) := by
  induction l with
  | nil => simp [insertScoredDesc]
  | cons x xs ih =>
    by_cases hxe : x.score ≤ e.score
    · rw [insertScoredDesc, if_pos hxe]
    · rw [insertScoredDesc, if_neg hxe]
      exact (ih.cons x).trans (List.Perm.swap e x xs)

theorem pairwise_insertScoredDesc (e : Entry) (l : List Entry)
    (h : List.Pairwise (fun a b => b.score ≤ a.score) l) :
    List.Pairwise (fun a b => b.score ≤ a.score) (insertScoredDesc e l) := by
  induction l with
  | nil => simp [insertScoredDesc]
  | cons x xs ih =>
    rcases List.pairwise_cons.mp h with ⟨hx, hxs⟩
    by_cases hxe : x.score ≤ e.score
    · rw [insertScoredDesc, if_pos hxe]
      refine List.pairwise_cons.mpr ⟨?_, h⟩
      intro y hy
      rcases List.mem_cons.mp hy with rfl | hy2
      · exact hxe
      · exact le_trans (hx y hy2) hxe
    · rw [insertScoredDesc, if_neg hxe]
      refine List.pairwise_cons.mpr ⟨?_, ih hxs⟩
      intro y hy
      have hy3 : y ∈ e :: xs := (perm_insertScoredDesc e xs).mem_iff.mp hy
      rcases List.mem_cons.mp hy3 with rfl | hy4
      · exact le_of_lt (lt_of_not_le hxe)
      · exact hx y hy4

theorem filter_insertScoredDesc (s : ℚ) (e : Entry) (l : List Entry) :
    (insertScoredDesc e l).filter (fun x => decide (x.score = s))
      = if e.score = s then e :: l.filter (fun x => decide (x.score = s))
        else l.filter (fun x => decide (x.score = s)) := by
  induction l with
  | nil =>
    by_cases hes : e.score = s
    · simp [insertScoredDesc, List.filter, hes]
    · simp [insertScoredDesc, List.filter, hes]
  | cons x xs ih =>
    by_cases hxe : x.score ≤ e.score
    · rw [insertScoredDesc, if_pos hxe]
      by_cases hes : e.score = s
      · simp [List.filter_cons, hes]
      · simp [List.filter_cons, hes]
    · rw [insertScoredDesc, if_neg hxe]
      by_cases hes : e.score = s
      · have hxs2 : ¬ (x.score = s) := by
          intro hx
          exact hxe (le_of_eq (hx.trans hes.symm))
        simp [List.filter_cons, hes, hxs2, ih]
      · simp [List.filter_cons, hes, ih]

theorem perm_sortScoredDesc (l : List Entry) : (sortScoredDesc l).Perm l := by
  induction l with
  | nil => simp [sortScoredDesc]
  | cons x xs ih =>
    have h1 : sortScoredDesc (x :: xs) = insertScoredDesc x (sortScoredDesc xs) := rfl
    rw [h1]
    exact (perm_insertScoredDesc x (sortScoredDesc xs)).trans (ih.cons x)

theorem pairwise_sortScoredDesc (l : List Entry) :
    List.Pairwise (fun a b => b.score ≤ a.score) (sortScoredDesc l) := by
  induction l with
  | nil => simp [sortScoredDesc]
  | cons x xs ih => exact pairwise_insertScoredDesc x (sortScoredDesc xs) ih

theorem filter_sortScoredDesc (s : ℚ) (l : List Entry) :
    (sortScoredDesc l).filter (fun x => decide (x.score = s))
      = l.filter (fun x => decide (x.score = s)) := by
  induction l with
  | nil => rfl
  | cons x xs ih =>
    have h1 : sortScoredDesc (x :: xs) = insertScoredDesc x (sortScoredDesc xs) := rfl
    rw [h1, filter_insertScoredDesc, List.filter_cons]
    by_cases hxs : x.score = s
    · simp [hxs, ih]
    · simp [hxs, ih]

/-! ## Helper lemmas for the cosine measure -/

/-- The key set of a term map. -/
def keyFinset (m : TermMap) : Finset String := (m.entries.map Prod.fst).toFinset

theorem lookupQ_eq_zero (l : List (String × ℚ)) (t : String)
    (h : t ∉ l.map Prod.fst) : lookupQ l t = 0 := by
  induction l with
  | nil => rfl
  | cons p ps ih =>
    rw [List.map_cons, List.mem_cons] at h
    push_neg at h
    cases p with
    | mk k v =>
      rw [lookupQ, if_neg (fun hk => h.1 (by simpa using hk.symm))]
      exact ih h.2

theorem lookupQ_of_mem (l : List (String × ℚ)) (t : String) (v : ℚ)
    (hnd : (l.map Prod.fst).Nodup) (hm : (t, v) ∈ l) : lookupQ l t = v := by
  induction l with
  | nil => cases hm
  | cons p ps ih =>
    rw [List.map_cons, List.nodup_cons] at hnd
    rcases List.mem_cons.mp hm with rfl | hm2
    · rw [lookupQ, if_pos rfl]
    · cases p with
      | mk k v2 =>
        have hk : k ≠ t := by
          intro hk
          exact hnd.1 (hk ▸ (List.mem_map.mpr ⟨(t, v), hm2, rfl⟩))
        rw [lookupQ, if_neg hk]
        exact ih hnd.2 hm2

theorem TermMap.get_eq_zero (a : TermMap) (t : String) (h : t ∉ keyFinset a) :
    a.get t = 0 := by
  rw [keyFinset, List.mem_toFinset] at h
  exact lookupQ_eq_zero a.entries t h

theorem dotNum_eq_sum (a b : TermMap) :
    dotNum a b = ∑ t ∈ keyFinset a, a.get t * b.get t := by
  rw [dotNum, keyFinset, List.sum_toFinset _ a.nodup, List.map_map]
  apply congrArg
  apply List.map_congr_left
  intro p hp
  simp only [Function.comp_apply]
  rw [show a.get p.1 = p.2 from lookupQ_of_mem a.entries p.1 p.2 a.nodup (by simpa using hp)]

theorem dotNum_eq_sum_union (a b : TermMap) :
    dotNum a b = ∑ t ∈ keyFinset a ∪ keyFinset b, a.get t * b.get t := by
  rw [dotNum_eq_sum]
  exact Finset.sum_subset (Finset.subset_union_left)
    (fun t _ ht => by rw [TermMap.get_eq_zero a t ht, zero_mul])

theorem dotNum_comm (a b : TermMap) : dotNum a b = dotNum b a := by
  rw [dotNum_eq_sum_union a b, dotNum_eq_sum_union b a, Finset.union_comm]
  exact Finset.sum_congr rfl (fun t _ => mul_comm _ _)

/-! ## Helper lemmas for the Jaccard measures -/

theorem jaccard_comm (a b : Finset String) : jaccard a b = jaccard b a := by
  rw [jaccard, jaccard, unionSize, unionSize, intersectionSize, intersectionSize,
    Finset.union_comm, Finset.inter_comm]

theorem jaccard_self (a : Finset String) (h : a.Nonempty) : jaccard a a = 1 := by
  have hc : a.card ≠ 0 := Nat.pos_iff_ne_zero.mp (Finset.card_pos.mpr h)
  rw [jaccard, unionSize, intersectionSize, Finset.union_self, Finset.inter_self]
  rw [if_neg hc]
  exact div_self (by exact_mod_cast hc)

theorem length_ngramsFromTokens (tokens : List String) (n : Nat) :
    (ngramsFromTokens tokens n).length = tokens.length + 1 - n := by
  simp [ngramsFromTokens]

/-! ## Helper lemma for the suggest handler -/

/-- A finite-id suggest call leaves behind exactly the cache state of its
`buildOrGetCache` call and issues a corpus fetch exactly when that call does,
whatever the lookup and scoring below it produce. -/
theorem suggestRun_num_cache (sqrtFn : ℚ → ℚ) (stem : String → String)
    (tfidf : List String → List TermMap) (now : Int) (storeRows : List Row)
    (pars : List (Int × Int)) (st : Option Snapshot) (q : ℚ) :
    (suggestRun sqrtFn stem tfidf now storeRows pars st (JSNum.num q)).cache
      = (buildOrGetCache stem now TITLE_BOOST storeRows st).2.1
    ∧ (suggestRun sqrtFn stem tfidf now storeRows pars st (JSNum.num q)).corpusFetches
      = (if (buildOrGetCache stem now TITLE_BOOST storeRows st).2.2 then 1 else 0) := by
  simp only [suggestRun]
  split <;> split <;> simp_all

/-! ## Concrete instantiations used by witnesses -/

/-- A concrete stand-in for `Math.sqrt` (the claims hold for any). -/
def sqrt0 : ℚ → ℚ := fun q => q

/-- A concrete stand-in for the Porter stemming function. -/
def stem0 : String → String := fun s => s

/-- A concrete stand-in for the TF-IDF model output. -/
def tfidf0 : List String → List TermMap := fun _ => []

/-- A concrete cached snapshot. -/
def snap0 : Snapshot := ⟨0, [], [], []⟩

/-- A concrete candidate row with theme `war` only. -/
def rowC5 : Row := ⟨2, "B", "", "", [], ["war"], "", ""⟩

/-- A concrete myth row. -/
def rowC10 : Row := ⟨1, "The Great Flood", "s", "c", ["tag"], ["flood"], "t", "u"⟩

/-! ## Claims -/

/-- Claim C1: for every candidate scored by the suggestion pipeline, the
final ranking score equals
`baseScore × (1 + themeBoost + bigramBoost + unigramBoost + keywordBoost) × titlePenalty`
with `themeBoost = min(sharedThemeCount, 3) × 0.45`,
`bigramBoost = bigramJaccard × 1.1`, `unigramBoost = unigramJaccard × 0.35`,
`keywordBoost = min(sharedKeywordCount, 3) × 0.5`, and
`titlePenalty = 0.6` iff `sharedTitleCount > 0` and `baseScore < 0.08`
(else `1.0`) — the spec-side formula `specFinalScore` evaluated at the
component measures the pipeline stores with the candidate. -/
theorem suggest_finalScore_matches_spec_formula (sqrtFn : ℚ → ℚ)
    (stem : String → String) (sourceRow : Row) (srcMap : TermMap)
    (cand : Row) (candMap : TermMap) :
    (scoreCandidate sqrtFn stem sourceRow srcMap cand candMap).score
      = specFinalScore (scoreCandidate sqrtFn stem sourceRow srcMap cand candMap).raw := rfl

/-- Claim C2: a scored candidate is kept in the qualification stage of the
suggestion pipeline (the `scored` list, before sorting and truncation) if
and only if its shared-theme count is at least `THEME_AUTO_ACCEPT = 2`
(auto-accept regardless of its final score, including a final score of `0`)
or its final score is at least `MIN_SCORE = 0.035`; every candidate failing
both conditions is dropped.  Stated as: the loop output is exactly the
filter of the scored candidates by that disjunction, in order. -/
theorem suggest_qualification_iff (sqrtFn : ℚ → ℚ) (stem : String → String)
    (sourceRow : Row) (srcMap : TermMap) (pairs : List (Row × TermMap)) :
    THEME_AUTO_ACCEPT = 2 ∧ MIN_SCORE = 0.035
    ∧ scoreLoop sqrtFn stem sourceRow srcMap pairs
      = (pairs.map (fun p => scoreCandidate sqrtFn stem sourceRow srcMap p.1 p.2)).filter
          (fun e => decide (THEME_AUTO_ACCEPT ≤ e.raw.sharedThemeCount ∨ MIN_SCORE ≤ e.score)) := by
  refine ⟨rfl, rfl, ?_⟩
  induction pairs with
  | nil => rfl
  | cons p ps ih =>
    simp only [scoreLoop, List.filterMap_cons, List.map_cons, List.filter_cons] at *
    by_cases h : THEME_AUTO_ACCEPT ≤ (scoreCandidate sqrtFn stem sourceRow srcMap p.1 p.2).raw.sharedThemeCount
        ∨ MIN_SCORE ≤ (scoreCandidate sqrtFn stem sourceRow srcMap p.1 p.2).score
    · simp [if_pos h, decide_eq_true h, ih]
    · simp only [if_neg h, ih]
      simp [h]

/-- Claim C3: the suggestion result list is sorted in descending order of
final score, ties are kept in input (candidate-pool) order — the sorted
list is a permutation of the qualifying candidates whose equal-score
fibers coincide with the input fibers — and its length is
`min(TOP_K = 12, number of qualifying candidates)`; the returned list is
the 12-element prefix of the sorted list. -/
theorem suggest_ordering_and_truncation (scored : List Entry) :
    TOP_K = 12
    ∧ List.Pairwise (fun a b => b.score ≤ a.score) (rankCandidates scored)
    ∧ (rankCandidates scored).length = min TOP_K scored.length
    ∧ (sortScoredDesc scored).Perm scored
    ∧ (∀ s : ℚ, (sortScoredDesc scored).filter (fun e => decide (e.score = s))
        = scored.filter (fun e => decide (e.score = s)))
    ∧ rankCandidates scored = (sortScoredDesc scored).take TOP_K := by
  refine ⟨rfl, ?_, ?_, perm_sortScoredDesc scored,
    fun s => filter_sortScoredDesc s scored, rfl⟩
  · exact List.Pairwise.sublist (List.take_sublist TOP_K (sortScoredDesc scored))
      (pairwise_sortScoredDesc scored)
  · rw [rankCandidates, List.length_take, (perm_sortScoredDesc scored).length_eq]

/-- Claim C4 counterexample: `mythId = -3` is not a well-formed positive
integer, yet the suggest handler does not reject it as invalid input: the
guard is `Number.isFinite`, which accepts `-3`, so the request proceeds to
the corpus fetch (one store access) and fails afterwards with NotFound. -/
theorem suggest_negative_id_not_rejected :
    (suggestRun sqrt0 stem0 tfidf0 0 [] [] none (JSNum.num (-3))).resp = SuggestResp.notFound
    ∧ (suggestRun sqrt0 stem0 tfidf0 0 [] [] none (JSNum.num (-3))).resp ≠ SuggestResp.badRequest
    ∧ (suggestRun sqrt0 stem0 tfidf0 0 [] [] none (JSNum.num (-3))).corpusFetches = 1 := by
  have h0 : (suggestRun sqrt0 stem0 tfidf0 0 [] [] none (JSNum.num (-3))).resp
      = SuggestResp.notFound := rfl
  refine ⟨h0, ?_, rfl⟩
  rw [h0]
  exact fun h => by cases h

/-- Claim C4 as amended: the suggest handler rejects with InvalidInput
(HTTP 400) exactly those `mythId` values whose numeric coercion is not
finite (NaN or an infinity, e.g. a non-numeric string), and such a
rejection happens before any store access; every finite numeric id —
including negative, zero and fractional ids — passes the guard and is never
answered with InvalidInput. -/
theorem suggest_invalid_input_guard (sqrtFn : ℚ → ℚ) (stem : String → String)
    (tfidf : List String → List TermMap) (now : Int) (storeRows : List Row)
    (pars : List (Int × Int)) (st : Option Snapshot) (mythId : JSNum) :
    (mythId.isFinite = false →
      suggestRun sqrtFn stem tfidf now storeRows pars st mythId
        = ⟨SuggestResp.badRequest, st, 0, 0⟩)
    ∧ (mythId.isFinite = true →
      (suggestRun sqrtFn stem tfidf now storeRows pars st mythId).resp ≠ SuggestResp.badRequest) := by
  cases mythId with
  | num q =>
    constructor
    · intro h
      simp [JSNum.isFinite] at h
    · intro _
      simp only [suggestRun]
      split
      · simp
      · split
        · simp
        · simp
  | nan => exact ⟨fun _ => rfl, fun h => by simp [JSNum.isFinite] at h⟩
  | posInf => exact ⟨fun _ => rfl, fun h => by simp [JSNum.isFinite] at h⟩
  | negInf => exact ⟨fun _ => rfl, fun h => by simp [JSNum.isFinite] at h⟩

/-- Witness for the amended claim C4: at the non-finite id `NaN` the
request is rejected with 400 and no store query of either kind is issued. -/
theorem suggest_invalid_input_guard_witness :
    JSNum.nan.isFinite = false
    ∧ suggestRun sqrt0 stem0 tfidf0 0 [] [] none JSNum.nan
        = ⟨SuggestResp.badRequest, none, 0, 0⟩ :=
  ⟨rfl, (suggest_invalid_input_guard sqrt0 stem0 tfidf0 0 [] [] none JSNum.nan).1 rfl⟩

/-- Claim C5: when the source record has at least one theme and no candidate
in the (source- and accepted-link-excluded) pool shares a theme with it, the
pool used for scoring is the full unrestricted pool; moreover the narrowing
step never maps a non-empty unrestricted pool to an empty one. -/
theorem pool_narrowing_fallback :
    (∀ (sourceThemes : Finset String) (raw : List Row),
        0 < sourceThemes.card →
        (∀ c ∈ raw, sharesTheme sourceThemes c = false) →
        narrowPool sourceThemes raw = raw)
    ∧ (∀ (sourceThemes : Finset String) (raw : List Row),
        raw ≠ [] → narrowPool sourceThemes raw ≠ []) := by
  constructor
  · intro themes raw hcard hshare
    rw [narrowPool, if_pos hcard]
    have hfil : raw.filter (fun c => sharesTheme themes c) = [] := by
      rw [List.filter_eq_nil_iff]
      intro c hc
      simp [hshare c hc]
    simp [hfil]
  · intro themes raw hne
    rw [narrowPool]
    by_cases hcard : 0 < themes.card
    · rw [if_pos hcard]
      by_cases hfil : (raw.filter (fun c => sharesTheme themes c)).isEmpty
      · simpa [hfil]
      · simp only [hfil, if_neg]
        simpa [List.isEmpty_iff] using hfil
    · rw [if_neg hcard]
      exact hne

/-- Witness for claim C5: a source with theme `flood` and a pool holding a
single candidate with theme `war` falls back to the unrestricted pool. -/
theorem pool_narrowing_fallback_witness :
    (0 < ({"flood"} : Finset String).card)
    ∧ (∀ c ∈ [rowC5], sharesTheme {"flood"} c = false)
    ∧ narrowPool {"flood"} [rowC5] = [rowC5] :=
  ⟨by decide, by decide, pool_narrowing_fallback.1 {"flood"} [rowC5] (by decide) (by decide)⟩

/-- Claim C6 counterexample: for the non-empty single-token sequence
`["abc"]` the bigram set is empty, so `bigramJaccard` of the sequence with
itself is `0`, not `1.0` as the claim states for every non-empty sequence
(in particular for single-token sequences). -/
theorem bigramJaccard_single_token_ne_one :
    bigramJaccard ["abc"] ["abc"] = 0 ∧ bigramJaccard ["abc"] ["abc"] ≠ 1 := by
  have h0 : bigramJaccard ["abc"] ["abc"] = 0 := rfl
  refine ⟨h0, ?_⟩
  rw [h0]
  norm_num

/-- Claim C6 as amended: `bigramJaccard` is symmetric for all token
sequences, and `bigramJaccard(a, a) = 1.0` for every token sequence `a` of
length at least 2 (a single-token sequence has an empty bigram set and
yields `0` instead). -/
theorem bigramJaccard_symm_and_self (a b : List String) :
    bigramJaccard a b = bigramJaccard b a
    ∧ (2 ≤ a.length → bigramJaccard a a = 1) := by
  constructor
  · exact jaccard_comm _ _
  · intro h
    apply jaccard_self
    have hlen : (ngramsFromTokens a 2).length = a.length - 1 := length_ngramsFromTokens a 2
    have hne : ngramsFromTokens a 2 ≠ [] := by
      intro hnil
      rw [hnil] at hlen
      simp at hlen
      omega
    rcases List.exists_mem_of_ne_nil _ hne with ⟨x, hx⟩
    exact ⟨x, by rw [toSet]; exact List.mem_toFinset.mpr hx⟩

/-- Witness for the amended claim C6: a two-token sequence has
`bigramJaccard` `1` with itself. -/
theorem bigramJaccard_symm_and_self_witness :
    2 ≤ (["abc","def"] : List String).length
    ∧ bigramJaccard ["abc","def"] ["abc","def"] = 1 :=
  ⟨by decide, (bigramJaccard_symm_and_self ["abc","def"] ["abc","def"]).2 (by decide)⟩

/-- Claim C8: a snapshot younger than the 5-minute TTL is returned unchanged
by `buildOrGetCache` with no store fetch, for every requested `titleBoost`
(including one differing from the boost the snapshot was built with) and
whatever the store currently holds; consequently two suggest calls within
the TTL window issue exactly one corpus fetch, and clearing the cache
between them (`invalidate`) forces a second fetch. -/
theorem cache_hit_and_fetch_counts :
    SUGGEST_CACHE_TTL = 1000 * 60 * 5
    ∧ (∀ (stem : String → String) (now tb : Int) (rows : List Row) (v : Snapshot),
        now - v.ts < SUGGEST_CACHE_TTL →
        buildOrGetCache stem now tb rows (some v) = (v, some v, false))
    ∧ (∀ (sqrtFn : ℚ → ℚ) (stem : String → String) (tfidf : List String → List TermMap)
        (t1 t2 : Int) (store1 store2 : List Row) (pars : List (Int × Int)) (q1 q2 : ℚ),
        t2 - t1 < SUGGEST_CACHE_TTL →
        suggestTwice sqrtFn stem tfidf t1 t2 store1 store2 pars (JSNum.num q1) (JSNum.num q2) = 1)
    ∧ (∀ (sqrtFn : ℚ → ℚ) (stem : String → String) (tfidf : List String → List TermMap)
        (t1 t2 : Int) (store1 store2 : List Row) (pars : List (Int × Int)) (q1 q2 : ℚ),
        suggestTwiceInvalidate sqrtFn stem tfidf t1 t2 store1 store2 pars
          (JSNum.num q1) (JSNum.num q2) = 2) := by
  refine ⟨rfl, ?_, ?_, ?_⟩
  · intro stem now tb rows v h
    rw [buildOrGetCache]
    simp [if_pos h]
  · intro sqrtFn stem tfidf t1 t2 s1 s2 pars q1 q2 h
    have hc1 := suggestRun_num_cache sqrtFn stem tfidf t1 s1 pars none q1
    have hb1 : buildOrGetCache stem t1 TITLE_BOOST s1 none
        = (buildSnapshot stem t1 TITLE_BOOST s1,
           some (buildSnapshot stem t1 TITLE_BOOST s1), true) := rfl
    have hc2 := suggestRun_num_cache sqrtFn stem tfidf t2 s2 pars
      (some (buildSnapshot stem t1 TITLE_BOOST s1)) q2
    have hb2 : buildOrGetCache stem t2 TITLE_BOOST s2
        (some (buildSnapshot stem t1 TITLE_BOOST s1))
        = (buildSnapshot stem t1 TITLE_BOOST s1,
           some (buildSnapshot stem t1 TITLE_BOOST s1), false) := by
      rw [buildOrGetCache]
      have hts : (buildSnapshot stem t1 TITLE_BOOST s1).ts = t1 := rfl
      rw [hts]
      simp [if_pos h]
    have e1 : (suggestRun sqrtFn stem tfidf t1 s1 pars none (JSNum.num q1)).corpusFetches = 1 := by
      rw [hc1.2, hb1]
      rfl
    have ecache : (suggestRun sqrtFn stem tfidf t1 s1 pars none (JSNum.num q1)).cache
        = some (buildSnapshot stem t1 TITLE_BOOST s1) := by
      rw [hc1.1, hb1]
    have e2 : (suggestRun sqrtFn stem tfidf t2 s2 pars
        (some (buildSnapshot stem t1 TITLE_BOOST s1)) (JSNum.num q2)).corpusFetches = 0 := by
      rw [hc2.2, hb2]
      rfl
    show (suggestRun sqrtFn stem tfidf t1 s1 pars none (JSNum.num q1)).corpusFetches
        + (suggestRun sqrtFn stem tfidf t2 s2 pars
            (suggestRun sqrtFn stem tfidf t1 s1 pars none (JSNum.num q1)).cache
            (JSNum.num q2)).corpusFetches = 1
    rw [ecache, e1, e2]
  · intro sqrtFn stem tfidf t1 t2 s1 s2 pars q1 q2
    have hc1 := suggestRun_num_cache sqrtFn stem tfidf t1 s1 pars none q1
    have hc2 := suggestRun_num_cache sqrtFn stem tfidf t2 s2 pars none q2
    have hb1 : buildOrGetCache stem t1 TITLE_BOOST s1 none
        = (buildSnapshot stem t1 TITLE_BOOST s1,
           some (buildSnapshot stem t1 TITLE_BOOST s1), true) := rfl
    have hb2 : buildOrGetCache stem t2 TITLE_BOOST s2 none
        = (buildSnapshot stem t2 TITLE_BOOST s2,
           some (buildSnapshot stem t2 TITLE_BOOST s2), true) := rfl
    have e1 : (suggestRun sqrtFn stem tfidf t1 s1 pars none (JSNum.num q1)).corpusFetches = 1 := by
      rw [hc1.2, hb1]
      rfl
    have e2 : (suggestRun sqrtFn stem tfidf t2 s2 pars none (JSNum.num q2)).corpusFetches = 1 := by
      rw [hc2.2, hb2]
      rfl
    show (suggestRun sqrtFn stem tfidf t1 s1 pars none (JSNum.num q1)).corpusFetches
        + (suggestRun sqrtFn stem tfidf t2 s2 pars none (JSNum.num q2)).corpusFetches = 2
    rw [e1, e2]

/-- Witness for claim C8: a concrete snapshot aged 10 ms is returned
unchanged under a different `titleBoost` (7) with no fetch, two concrete
suggest calls 10 ms apart fetch once in total, and with an invalidation
between them they fetch twice. -/
theorem cache_hit_and_fetch_counts_witness :
    ((10 : Int) - snap0.ts < SUGGEST_CACHE_TTL)
    ∧ buildOrGetCache stem0 10 7 [] (some snap0) = (snap0, some snap0, false)
    ∧ ((10 : Int) - (0 : Int) < SUGGEST_CACHE_TTL)
    ∧ suggestTwice sqrt0 stem0 tfidf0 0 10 [] [] [] (JSNum.num 1) (JSNum.num 1) = 1
    ∧ suggestTwiceInvalidate sqrt0 stem0 tfidf0 0 10 [] [] [] (JSNum.num 1) (JSNum.num 1) = 2 :=
  ⟨by decide, cache_hit_and_fetch_counts.2.1 stem0 10 7 [] snap0 (by decide),
   by decide, cache_hit_and_fetch_counts.2.2.1 sqrt0 stem0 tfidf0 0 10 [] [] [] 1 1 (by decide),
   cache_hit_and_fetch_counts.2.2.2 sqrt0 stem0 tfidf0 0 10 [] [] [] 1 1⟩

/-- Claim C9: the cosine measure is symmetric for every pair of term-weight
maps and every square-root function, even though the implementation
accumulates the dot product only over the keys of its first argument —
keys missing from the other map contribute `0` (`b[t] || 0`). -/
theorem cosine_symm (sqrtFn : ℚ → ℚ) (a b : TermMap) :
    cosine sqrtFn a b = cosine sqrtFn b a := by
  rw [cosine, cosine]
  by_cases h : sumSq a = 0 ∨ sumSq b = 0
  · rw [if_pos h, if_pos (Or.symm h)]
  · rw [if_neg h, if_neg (fun h2 => h (Or.symm h2)), dotNum_comm, mul_comm]

/-- Claim C10: `buildDocForRow` is total in `titleBoost`; for every
`titleBoost ≤ 1` (including `0` and negative values) the repetition count
`Math.max(1, titleBoost)` clamps to `1`, so the normalized title appears
exactly once and the built document equals the one built with
`titleBoost = 1`. -/
theorem buildDocForRow_titleBoost_clamped (stem : String → String) (row : Row)
    (tb : Int) (h : tb ≤ 1) :
    titlePart stem row.title tb = preprocessToString stem row.title
    ∧ buildDocForRow stem row tb = buildDocForRow stem row 1 := by
  have h1 : titlePart stem row.title tb = preprocessToString stem row.title := by
    rw [titlePart, max_eq_left h]
    rfl
  have h2 : titlePart stem row.title 1 = preprocessToString stem row.title := by
    rw [titlePart, max_eq_left (le_refl (1 : Int))]
    rfl
  exact ⟨h1, by rw [buildDocForRow, buildDocForRow, h1, h2]⟩

/-- Witness for claim C10: a concrete row built with `titleBoost = -1`
yields the same document as with `titleBoost = 1`. -/
theorem buildDocForRow_titleBoost_clamped_witness :
    ((-1 : Int) ≤ 1) ∧ buildDocForRow stem0 rowC10 (-1) = buildDocForRow stem0 rowC10 1 :=
  ⟨by decide, (buildDocForRow_titleBoost_clamped stem0 rowC10 (-1) (by decide)).2⟩
